import Mathlib

set_option maxRecDepth 4000

/-!
Verification of the LoRa antenna controller/phaser protocol layer.

The development shallowly embeds the C++ sources of the two Arduino nodes:
the phaser firmware (relay control, command dispatch, reply building), the
controller firmware (command building, reply processing, retained state) and
the shared protocol header (authentication tag). Frames are byte lists;
C machine integers are modelled as Nat or Int with explicit reduction modulo
2 to the 16 where the C code truncates.
-/

/-- Raw frames and buffers are byte sequences. -/
abbrev Bytes := List Nat

/-- NUM_DIRECTIONS from config.h: the RemoteQTH build has eight directions. -/
def NUM_DIRECTIONS : Nat := 8

/-- MAX_COMMAND_LEN from the phaser config.h: the command buffer holds 7 bytes. -/
def MAX_COMMAND_LEN : Nat := 7

/-- DIRECTION_ANGLES from the phaser config.h, as ASCII byte triples
"000", "045", "090", "135", "180", "225", "270", "315"; the controller's
ANGLE_N .. ANGLE_NW strings in protocol.h are the same eight triples. -/
def DIRECTION_ANGLES : List Bytes :=
  [[48, 48, 48], [48, 52, 53], [48, 57, 48], [49, 51, 53],
   [49, 56, 48], [50, 50, 53], [50, 55, 48], [51, 49, 53]]

/-- RELAY_POSITIONS for the RemoteQTH profile (phaser config.h): the six
relay states driven for each of the eight directions, HIGH as true. -/
def RELAY_POSITIONS : List (List Bool) :=
  [[false, false, false, false, false, false],
   [false, false, true,  true,  false, true ],
   [true,  true,  true,  true,  true,  true ],
   [false, true,  true,  false, false, true ],
   [false, false, false, false, true,  true ],
   [true,  true,  false, false, false, true ],
   [true,  true,  true,  true,  false, false],
   [true,  false, false, true,  false, false]]

/-- AUTH_KEY, the shared secret "N2RD-ANTENNA-KEY" of protocol.h as ASCII
bytes; sizeof(AUTH_KEY) - 1 = 16 is its length. -/
def AUTH_KEY : Bytes := [78, 50, 82, 68, 45, 65, 78, 84, 69, 78, 78, 65, 45, 75, 69, 89]

/-- Loop body of compute_auth from protocol.h. The uint16_t assignments are
modelled by reducing modulo 65536 exactly where the C assignments truncate:
once after the rotate/xor assignment, once after adding the data byte. -/
def compute_auth_go : Bytes → Nat → Nat → Nat
  | [], _, hash => hash
  | b :: rest, i, hash =>
      compute_auth_go rest (i + 1)
        (((((hash <<< 5) ||| (hash >>> 11)) ^^^ AUTH_KEY.getD (i % 16) 0) % 65536 + b) % 65536)

/-- compute_auth(data, len) from protocol.h, seeded with 0xB33F. -/
def compute_auth (data : Bytes) : Nat := compute_auth_go data 0 0xB33F

/-- Left rotation by 5 of a 16-bit value, the rotate-left of the reference
tag definition. -/
def rotl16 (t : Nat) : Nat := (t % 2048) * 32 + t / 2048

/-- Reference tag loop: for each payload byte b at index i, the tag is
rotated left by 5 over 16 bits, xored with the secret byte at i modulo the
secret length, then incremented by b in 16-bit arithmetic. -/
def authRefGo (secret : Bytes) : Bytes → Nat → Nat → Nat
  | [], _, tag => tag
  | b :: rest, i, tag =>
      authRefGo secret rest (i + 1)
        (((rotl16 tag ^^^ secret.getD (i % secret.length) 0) + b) % 65536)

/-- Reference tag over a payload and a secret, seeded with 0xB33F. -/
def authRef (payload secret : Bytes) : Nat := authRefGo secret payload 0 0xB33F

/-- Modelled from the spec: verify(payload, tag, secret) is absent from the
sources (no code path of either node ever checks a received tag); the spec
defines it as recompute-and-compare-equal, which is embedded here over the
reference tag. -/
def verify_auth (payload : Bytes) (tag : Nat) (secret : Bytes) : Bool :=
  authRef payload secret == tag

/-- Telemetry values read while building a reply, at the sensor boundary:
rssi from the radio, bus millivolts and milliamps and MCU millivolts from
the INA3221, each a C int. The power_str field stands for the dtostrf
formatting of the reverse-power float in build_power_reply, kept as an
input at the floating-point boundary. -/
structure Telemetry where
  rssi : Int
  bus_mv : Int
  bus_ma : Int
  mcu_mv : Int
  power_str : Bytes
deriving DecidableEq

/-- Decimal ASCII digits of a natural number, most significant first,
fuel-structured so that concrete values reduce by rfl. -/
def decDigitsGo : Nat → Nat → Bytes
  | 0, _ => []
  | fuel + 1, n => if n < 10 then [48 + n] else decDigitsGo fuel (n / 10) ++ [48 + n % 10]

/-- Decimal ASCII digits of a natural number. -/
def decDigits (n : Nat) : Bytes := decDigitsGo (n + 1) n

/-- A zero-padded sprintf integer field such as %+04d (plus true, width 4)
or %05d (plus false, width 5): optional sign, zero padding up to the minimum
width, then the digits. A value with more digits than the width widens the
field, exactly as sprintf does. -/
def fmtInt (plus : Bool) (width : Nat) (v : Int) : Bytes :=
  let sign : Bytes := if v < 0 then [45] else if plus then [43] else []
  let ds := decDigits v.natAbs
  sign ++ List.replicate (width - (sign.length + ds.length)) 48 ++ ds

/-- build_position_reply(direction) from the phaser main source: the ';'
marker, the three azimuth bytes of DIRECTION_ANGLES[direction], then the
sprintf fields r%+04d, v%05d, i%03d, b%04d. -/
def build_position_reply (direction : Int) (t : Telemetry) : Bytes :=
  [59] ++ DIRECTION_ANGLES.getD direction.toNat [] ++
  [114] ++ fmtInt true 4 t.rssi ++
  [118] ++ fmtInt false 5 t.bus_mv ++
  [105] ++ fmtInt false 3 t.bus_ma ++
  [98] ++ fmtInt false 4 t.mcu_mv

/-- build_power_reply from the phaser main source: the 'V' marker followed by
the dtostrf reverse-power string. -/
def build_power_reply (t : Telemetry) : Bytes := 86 :: t.power_str

/-- Phaser application state: current_direction and target_direction
(C ints), the six relay outputs last driven, and the reply buffer
(reply_buffer together with reply_length, as the list of valid bytes). -/
structure PhaserState where
  current : Int
  target : Int
  relays : List Bool
  reply : Bytes
deriving DecidableEq

/-- set_antenna_direction from the phaser main source: an out-of-range index
returns without touching anything; otherwise the six relays are driven from
RELAY_POSITIONS[direction] and current_direction is set. -/
def set_antenna_direction (s : PhaserState) (direction : Int) : PhaserState :=
  if direction < 0 ∨ (NUM_DIRECTIONS : Int) ≤ direction then s
  else { s with relays := RELAY_POSITIONS.getD direction.toNat [], current := direction }

/-- parse_direction_from_command from the phaser main source: commands
shorter than 7 bytes keep the current direction; otherwise the azimuth's
middle digit, command_buffer[4] - '0', selects the direction through the
switch, and an unrecognized digit keeps the current direction. -/
def parse_direction_from_command (cmd : Bytes) (clen : Nat) (current : Int) : Int :=
  if clen < 7 then current
  else
    let digit2 : Int := (cmd.getD 4 0 : Int) - 48
    if digit2 = 0 then 0
    else if digit2 = 4 then 1
    else if digit2 = 9 then 2
    else if digit2 = 3 then 3
    else if digit2 = 8 then 4
    else if digit2 = 2 then 5
    else if digit2 = 7 then 6
    else if digit2 = 1 then 7
    else if digit2 = 6 then 0
    else current

/-- handle_set_direction from the phaser main source: a CR terminator
executes the move at once, any other terminator only stores the target;
both paths then measure sensors and build a position reply for the possibly
updated current direction. -/
def handle_set_direction (s : PhaserState) (cmd : Bytes) (clen : Nat) (t : Telemetry)
    (direction : Int) : PhaserState :=
  let s1 := if cmd.getD (clen - 1) 0 = 13 then set_antenna_direction s direction
            else { s with target := direction }
  { s1 with reply := build_position_reply s1.current t }

/-- process_command from the phaser main source: dispatch on the received
length (1, 3 or 7) and on the sentinel bytes; any unmatched command returns
with the state and the reply buffer untouched. -/
def process_command (s : PhaserState) (cmd : Bytes) (clen : Nat) (t : Telemetry) :
    PhaserState :=
  if clen = 0 then s
  else if clen = 1 then
    if cmd.getD 0 0 = 86 then { s with reply := build_power_reply t }
    else if cmd.getD 0 0 = 59 then { s with reply := build_position_reply s.current t }
    else s
  else if clen = 3 then
    if cmd.getD 1 0 = 73 then { s with reply := build_position_reply s.current t }
    else if cmd.getD 1 0 = 77 then
      let s1 := set_antenna_direction s s.target
      { s1 with reply := build_position_reply s1.current t }
    else s
  else if clen = 7 then
    if cmd.getD 0 0 = 65 ∧ cmd.getD 1 0 = 80 ∧ cmd.getD 2 0 = 49 then
      handle_set_direction s cmd clen t (parse_direction_from_command cmd clen s.current)
    else s
  else s

/-- process_command with the length-7 set-direction branch replaced by the
identity, used to state that the receive path never reaches that branch. -/
def process_command_no7 (s : PhaserState) (cmd : Bytes) (clen : Nat) (t : Telemetry) :
    PhaserState :=
  if clen = 0 then s
  else if clen = 1 then
    if cmd.getD 0 0 = 86 then { s with reply := build_power_reply t }
    else if cmd.getD 0 0 = 59 then { s with reply := build_position_reply s.current t }
    else s
  else if clen = 3 then
    if cmd.getD 1 0 = 73 then { s with reply := build_position_reply s.current t }
    else if cmd.getD 1 0 = 77 then
      let s1 := set_antenna_direction s s.target
      { s1 with reply := build_position_reply s1.current t }
    else s
  else if clen = 7 then s
  else s

/-- Length of the command the phaser processes for a received frame:
recvfromAck caps the message at the 7-byte buffer, then the loop clamps to
MAX_COMMAND_LEN - 1 and null-terminates at that index. -/
def recvLen (frame : Bytes) : Nat :=
  let len := min frame.length MAX_COMMAND_LEN
  if len > MAX_COMMAND_LEN - 1 then MAX_COMMAND_LEN - 1 else len

/-- One iteration of the phaser loop for a frame arriving from the
controller's address: truncate the frame into the command buffer, process
it, then unconditionally hand the reply buffer to sendtoWait. The emitted
frame is returned beside the new state; the code has no path that skips the
send once a controller frame was received. -/
def phaserLoopStep (s : PhaserState) (frame : Bytes) (t : Telemetry) :
    PhaserState × Option Bytes :=
  let clen := recvLen frame
  let s1 := process_command s (frame.take clen) clen t
  (s1, some s1.reply)

/-- The processed command reaches one of process_command's handlers
(power, stop, position query, movement, or the set-direction branch). -/
def dispatches (cmd : Bytes) (clen : Nat) : Prop :=
  (clen = 1 ∧ (cmd.getD 0 0 = 86 ∨ cmd.getD 0 0 = 59)) ∨
  (clen = 3 ∧ (cmd.getD 1 0 = 73 ∨ cmd.getD 1 0 = 77)) ∨
  (clen = 7 ∧ cmd.getD 0 0 = 65 ∧ cmd.getD 1 0 = 80 ∧ cmd.getD 2 0 = 49)

instance (cmd : Bytes) (clen : Nat) : Decidable (dispatches cmd clen) := by
  unfold dispatches; infer_instance

/-- Both phaser direction fields are valid indices of the active profile. -/
def dirInRange (s : PhaserState) : Prop :=
  0 ≤ s.current ∧ s.current < (NUM_DIRECTIONS : Int) ∧
  0 ≤ s.target ∧ s.target < (NUM_DIRECTIONS : Int)

instance (s : PhaserState) : Decidable (dirInRange s) := by
  unfold dirInRange; infer_instance

/-- Controller retained state: current_direction, the last_rev_power string
(its six characters), and the last reply buffer with its length. -/
structure CtrlState where
  current_direction : Int
  last_rev_power : Bytes
  last_reply : Bytes
deriving DecidableEq

/-- build_direction_command from the controller main source: the bytes
'A' 'P' '1', the azimuth triple of the direction, then the CR terminator. -/
def build_direction_command (direction : Nat) : Bytes :=
  [65, 80, 49] ++ DIRECTION_ANGLES.getD direction [] ++ [13]

/-- process_reply from the controller main source: a ';' reply updates
current_direction from the single byte buf[1] - '0' when that value is in
range and always stores the full reply; a 'V' reply of at least 7 bytes
stores the six power characters; any other buffer changes nothing. -/
def process_reply (s : CtrlState) (buf : Bytes) : CtrlState :=
  if buf.length = 0 then s
  else if buf.getD 0 0 = 59 then
    let d : Int := (buf.getD 1 0 : Int) - 48
    let s1 := if 2 ≤ buf.length ∧ 0 ≤ d ∧ d < (NUM_DIRECTIONS : Int) then
                { s with current_direction := d }
              else s
    { s1 with last_reply := buf }
  else if buf.getD 0 0 = 86 then
    if 7 ≤ buf.length then { s with last_rev_power := (buf.drop 1).take 6 } else s
  else s

/-- Outcome of one transport round trip: sendtoWait failed, recvfromAck
timed out, or a reply buffer was received. -/
inductive TransportOutcome
  | sendFailed
  | noReply
  | received (buf : Bytes)

/-- send_and_process_command from the controller main source, restricted to
its effect on retained state: both failure paths only display a status
message; a received buffer is handed to process_reply. -/
def send_and_process_command (s : CtrlState) (o : TransportOutcome) : CtrlState :=
  match o with
  | .sendFailed => s
  | .noReply => s
  | .received buf => process_reply s buf

/-- The received reply fails to decode on the controller: empty, an unknown
first byte, or a power reply shorter than its required 7 bytes. -/
def replyDecodeFails (buf : Bytes) : Prop :=
  buf.length = 0 ∨ (buf.getD 0 0 ≠ 59 ∧ buf.getD 0 0 ≠ 86) ∨
  (buf.getD 0 0 = 86 ∧ buf.length < 7)

instance (buf : Bytes) : Decidable (replyDecodeFails buf) := by
  unfold replyDecodeFails; infer_instance

/-- The quantizer the specification claims, for the Full profile: eight
45-degree sectors centered on the multiples of 45, midpoint ties rounding to
the higher-index neighbor, and 360 treated as 0. -/
def quantizeSpec8 (angle : Nat) : Nat := (2 * angle + 45) / 90 % 8

/-- The azimuth-to-direction mapping the phaser actually applies, stated for
the amended quantization claim: the direction is a function of the azimuth's
tens digit alone, through the fixed lookup of the canonical azimuths, any
other tens digit keeping the current direction. -/
def tensDigitDirection (tensByte : Nat) (current : Int) : Int :=
  let digit2 : Int := (tensByte : Int) - 48
  if digit2 = 0 then 0
  else if digit2 = 4 then 1
  else if digit2 = 9 then 2
  else if digit2 = 3 then 3
  else if digit2 = 8 then 4
  else if digit2 = 2 then 5
  else if digit2 = 7 then 6
  else if digit2 = 1 then 7
  else if digit2 = 6 then 0
  else current

/-- Concrete telemetry used by the witnesses: rssi -95 dBm, 13800 mV bus,
500 mA, 3300 mV MCU, power string "1500.6". -/
def demoTelemetry : Telemetry := ⟨-95, 13800, 500, 3300, [49, 53, 48, 48, 46, 54]⟩

/-- Telemetry whose bus voltage 123456 mV does not fit the %05d field. -/
def overTelemetry : Telemetry := ⟨-95, 123456, 500, 3300, []⟩

/-- Phaser state with a stored target SW and a stale reply buffer from an
earlier transaction. -/
def demoPhaser : PhaserState := ⟨0, 5, [false, false, false, false, false, false], [59, 48]⟩

/-- Controller state with a retained direction SE. -/
def demoCtrl : CtrlState := ⟨3, [45, 45], []⟩

/-! ## Arithmetic facts about the 16-bit rotation in compute_auth -/

theorem pow_mul_or_eq_add (n : Nat) :
    ∀ a b : Nat, b < 2 ^ n → ((2 ^ n * a) ||| b) = 2 ^ n * a + b := by
  induction n with
  | zero =>
    intro a b hb
    interval_cases b
    simp
  | succ n ih =>
    intro a b hb
    have hxe : 2 ^ (n + 1) * a = 2 * (2 ^ n * a) := by ring
    have hp : (2 : Nat) ^ (n + 1) = 2 * 2 ^ n := by ring
    have hdiv : (2 ^ (n + 1) * a ||| b) / 2 = (2 ^ n * a) ||| (b / 2) := by
      rw [Nat.or_div_two, hxe, Nat.mul_div_cancel_left _ (by norm_num : 0 < 2)]
    have hx0 : (2 ^ (n + 1) * a) % 2 = 0 := by omega
    have hiff := Nat.or_mod_two_eq_one (a := 2 ^ (n + 1) * a) (b := b)
    have hmod : (2 ^ (n + 1) * a ||| b) % 2 = b % 2 := by
      rcases Nat.mod_two_eq_zero_or_one b with hb2 | hb2
      · rcases Nat.mod_two_eq_zero_or_one (2 ^ (n + 1) * a ||| b) with hor | hor
        · omega
        · have := hiff.mp hor
          omega
      · have := hiff.mpr (Or.inr hb2)
        omega
    have hib : b / 2 < 2 ^ n := by omega
    have hrec := ih a (b / 2) hib
    have hdm := Nat.div_add_mod (2 ^ (n + 1) * a ||| b) 2
    rw [hdiv, hrec, hmod] at hdm
    omega

theorem pow_mul_add_xor (n : Nat) : ∀ q m k : Nat, m < 2 ^ n → k < 2 ^ n →
    (2 ^ n * q + m) ^^^ k = 2 ^ n * q + (m ^^^ k) := by
  induction n with
  | zero =>
    intro q m k hm hk
    interval_cases m
    interval_cases k
    simp
  | succ n ih =>
    intro q m k hm hk
    have hp : (2 : Nat) ^ (n + 1) = 2 * 2 ^ n := by ring
    have hq : 2 ^ (n + 1) * q = 2 * (2 ^ n * q) := by ring
    have hxdiv : (2 ^ (n + 1) * q + m) / 2 = 2 ^ n * q + m / 2 := by omega
    have hdiv : ((2 ^ (n + 1) * q + m) ^^^ k) / 2 = (2 ^ n * q + m / 2) ^^^ (k / 2) := by
      rw [Nat.xor_div_two, hxdiv]
    have hmod : ((2 ^ (n + 1) * q + m) ^^^ k) % 2 = (m ^^^ k) % 2 := by
      rw [Nat.xor_mod_two_eq, Nat.xor_mod_two_eq]
      omega
    have hrec := ih q (m / 2) (k / 2) (by omega) (by omega)
    have hd2 : (m ^^^ k) / 2 = m / 2 ^^^ k / 2 := Nat.xor_div_two
    have h1 := Nat.div_add_mod ((2 ^ (n + 1) * q + m) ^^^ k) 2
    rw [hdiv, hrec] at h1
    have h2 := Nat.div_add_mod (m ^^^ k) 2
    omega

theorem rot_or_eq (h : Nat) (hh : h < 65536) :
    (h <<< 5) ||| (h >>> 11) = 65536 * (h / 2048) + rotl16 h := by
  have h25 : (2 : Nat) ^ 5 = 32 := by norm_num
  have e1 : h <<< 5 = 32 * h := by rw [Nat.shiftLeft_eq, h25, Nat.mul_comm]
  have e2 : h >>> 11 = h / 2048 := by rw [Nat.shiftRight_eq_div_pow]
  have key := pow_mul_or_eq_add 5 h (h / 2048) (by rw [h25]; omega)
  rw [h25] at key
  rw [e1, e2, key]
  unfold rotl16
  omega

theorem auth_step_eq (h k b : Nat) (hh : h < 65536) (hk : k < 65536) :
    ((((h <<< 5) ||| (h >>> 11)) ^^^ k) % 65536 + b) % 65536
      = ((rotl16 h ^^^ k) + b) % 65536 := by
  have hr16 : rotl16 h < 65536 := by unfold rotl16; omega
  have h216 : (2 : Nat) ^ 16 = 65536 := by norm_num
  have hx := pow_mul_add_xor 16 (h / 2048) (rotl16 h) k
    (by rw [h216]; exact hr16) (by rw [h216]; exact hk)
  rw [h216] at hx
  have hw : rotl16 h ^^^ k < 65536 := by
    have hlt := Nat.xor_lt_two_pow (x := rotl16 h) (y := k) (n := 16)
      (by rw [h216]; exact hr16) (by rw [h216]; exact hk)
    rw [h216] at hlt
    exact hlt
  rw [rot_or_eq h hh, hx]
  omega

theorem authkey_getD_lt : ∀ j, j < 16 → AUTH_KEY.getD j 0 < 65536 := by decide

theorem compute_auth_go_eq (data : Bytes) : ∀ i hash : Nat, hash < 65536 →
    compute_auth_go data i hash = authRefGo AUTH_KEY data i hash := by
  induction data with
  | nil => intro i hash _; rfl
  | cons b rest ih =>
    intro i hash hh
    have hk : AUTH_KEY.getD (i % 16) 0 < 65536 :=
      authkey_getD_lt _ (Nat.mod_lt _ (by norm_num))
    have hlen : AUTH_KEY.length = 16 := rfl
    simp only [compute_auth_go, authRefGo, hlen]
    rw [auth_step_eq _ _ _ hh hk]
    exact ih (i + 1) _ (Nat.mod_lt _ (by norm_num))

/-- C6: the integrity-tag computation of protocol.h equals the reference
definition (seed 0xB33F; per byte: rotate left by 5 over 16 bits, xor the
secret byte at the index modulo the secret length, add the payload byte),
and verification — recompute and compare — of a computed tag returns true
for every payload, in particular over compute_auth's own output with the
shared key. -/
theorem compute_auth_matches_reference :
    (∀ data : Bytes, compute_auth data = authRef data AUTH_KEY) ∧
    (∀ payload secret : Bytes, verify_auth payload (authRef payload secret) secret = true) ∧
    (∀ payload : Bytes, verify_auth payload (compute_auth payload) AUTH_KEY = true) := by
  have h1 : ∀ data : Bytes, compute_auth data = authRef data AUTH_KEY := fun data =>
    compute_auth_go_eq data 0 0xB33F (by norm_num)
  refine ⟨h1, fun p s => ?_, fun p => ?_⟩
  · simp [verify_auth]
  · simp [verify_auth, h1]

/-- C5: for every direction index of the Full profile, parsing the frame
built by build_direction_command for that direction (canonical azimuth,
CR terminator, execute now) resolves back to the same index, whatever the
phaser's current direction. -/
theorem direction_command_roundtrip (d : Fin 8) (cur : Int) :
    parse_direction_from_command (build_direction_command d.val) 7 cur = (d.val : Int) := by
  fin_cases d <;> rfl

/-- C7: a length-3 command whose second byte is 'M' (query position with
apply_target) sets current to the stored target, drives the relays from the
target's RELAY_POSITIONS row, and builds a position reply for the new
current direction; the target itself is unchanged. -/
theorem apply_target_command (s : PhaserState) (cmd : Bytes) (t : Telemetry)
    (hM : cmd.getD 1 0 = 77) (h0 : 0 ≤ s.target) (h8 : s.target < 8) :
    process_command s cmd 3 t =
      { current := s.target, target := s.target,
        relays := RELAY_POSITIONS.getD s.target.toNat [],
        reply := build_position_reply s.target t } := by
  obtain ⟨c, tg, rl, rp⟩ := s
  dsimp only at h0 h8 ⊢
  unfold process_command set_antenna_direction
  rw [if_neg (by norm_num : ¬ (3:Nat) = 0), if_neg (by norm_num : ¬ (3:Nat) = 1),
      if_pos (rfl : (3:Nat) = 3)]
  rw [if_neg (show ¬ List.getD cmd 1 0 = 73 by rw [hM]; norm_num), if_pos hM]
  rw [if_neg (show ¬ (tg < 0 ∨ (NUM_DIRECTIONS : Int) ≤ tg) by
    simp only [NUM_DIRECTIONS]; push_cast; omega)]

/-- C9: the receive loop clamps the processed command length to at most
MAX_COMMAND_LEN - 1 = 6 bytes, so a loop iteration computes the same state
as process_command with its length-7 set-direction branch removed: that
branch is unreachable for every received frame. -/
theorem receive_path_never_sets_direction (frame : Bytes) (s : PhaserState) (t : Telemetry) :
    recvLen frame ≤ 6 ∧
    (phaserLoopStep s frame t).1 =
      process_command_no7 s (frame.take (recvLen frame)) (recvLen frame) t := by
  have hle : recvLen frame ≤ 6 := by
    unfold recvLen MAX_COMMAND_LEN
    dsimp only
    split <;> omega
  refine ⟨hle, ?_⟩
  unfold phaserLoopStep
  dsimp only
  unfold process_command process_command_no7
  split_ifs <;> first | rfl | omega

set_option maxHeartbeats 1000000 in
/-- parse_direction_from_command either keeps the current direction or
returns one of the eight valid indices. -/
theorem parse_direction_range (cmd : Bytes) (clen : Nat) (cur : Int) :
    parse_direction_from_command cmd clen cur = cur ∨
    (0 ≤ parse_direction_from_command cmd clen cur ∧
      parse_direction_from_command cmd clen cur < 8) := by
  unfold parse_direction_from_command
  dsimp only
  split_ifs <;> first | exact Or.inl rfl | exact Or.inr (by norm_num)

/-- set_antenna_direction never touches the target, and either keeps the
current direction or sets it to an in-range index. -/
theorem set_antenna_direction_fields (s : PhaserState) (d : Int) :
    (set_antenna_direction s d).target = s.target ∧
    ((set_antenna_direction s d).current = s.current ∨
      (0 ≤ d ∧ d < 8 ∧ (set_antenna_direction s d).current = d)) := by
  unfold set_antenna_direction NUM_DIRECTIONS
  split_ifs with h
  · exact ⟨rfl, Or.inl rfl⟩
  · push_cast at h
    push_neg at h
    exact ⟨rfl, Or.inr ⟨by omega, by omega, rfl⟩⟩

/-- set_antenna_direction preserves the direction-range invariant for any
argument, thanks to its bounds guard. -/
theorem dirInRange_set_antenna (s : PhaserState) (d : Int) (h : dirInRange s) :
    dirInRange (set_antenna_direction s d) := by
  obtain ⟨h1, h2, h3, h4⟩ := h
  obtain ⟨ht, hcur⟩ := set_antenna_direction_fields s d
  unfold dirInRange NUM_DIRECTIONS at *
  push_cast at *
  rcases hcur with hcur | ⟨hd0, hd8, hcur⟩ <;> rw [ht, hcur] <;>
    exact ⟨by omega, by omega, by omega, by omega⟩

set_option maxHeartbeats 1000000 in
/-- C10: every command-processing step preserves the invariant that both
direction fields are valid indices: set_antenna_direction refuses
out-of-range indices, parse_direction_from_command falls back to the
in-range current direction, and storing a target only stores a parsed
direction. -/
theorem process_command_preserves_range (s : PhaserState) (cmd : Bytes) (clen : Nat)
    (t : Telemetry) (h : dirInRange s) : dirInRange (process_command s cmd clen t) := by
  obtain ⟨h1, h2, h3, h4⟩ := h
  unfold process_command handle_set_direction
  dsimp only
  split_ifs <;> try exact ⟨h1, h2, h3, h4⟩
  · exact dirInRange_set_antenna s s.target ⟨h1, h2, h3, h4⟩
  · exact dirInRange_set_antenna s _ ⟨h1, h2, h3, h4⟩
  · refine ⟨h1, h2, ?_, ?_⟩
    · show (0 : Int) ≤ parse_direction_from_command cmd clen s.current
      rcases parse_direction_range cmd clen s.current with hp | ⟨hp0, hp8⟩
      · rw [hp]; exact h1
      · exact hp0
    · show parse_direction_from_command cmd clen s.current < (NUM_DIRECTIONS : Int)
      rcases parse_direction_range cmd clen s.current with hp | ⟨hp0, hp8⟩
      · rw [hp]; exact h2
      · simp only [NUM_DIRECTIONS]; push_cast; omega

/-- Witness for C10 at a concrete state and the power command. -/
theorem process_command_preserves_range_witness :
    dirInRange demoPhaser ∧
    dirInRange (process_command demoPhaser [86] 1 demoTelemetry) :=
  ⟨by decide, process_command_preserves_range demoPhaser [86] 1 demoTelemetry (by decide)⟩

/-- Witness for C7: Scenario D, from current N and target SW the 'M' command
moves to SW, drives SW's relay row and replies for SW. -/
theorem apply_target_command_witness :
    (0 : Int) ≤ 5 ∧ (5 : Int) < 8 ∧
    process_command ⟨0, 5, [false, false, false, false, false, false], []⟩
        [65, 77, 49] 3 demoTelemetry =
      { current := 5, target := 5,
        relays := [true, true, false, false, false, true],
        reply := build_position_reply 5 demoTelemetry } :=
  ⟨by decide, by decide,
    by rw [apply_target_command _ _ _ (by decide) (by decide) (by decide)]; rfl⟩

/-- C8: on the controller, a send failure or timeout leaves the retained
state untouched, and so does a received buffer that fails to decode; only a
successfully decoded reply can update current_direction, last_rev_power or
the last-reply buffer. -/
theorem unsuccessful_round_trip_preserves_state :
    (∀ s : CtrlState, send_and_process_command s .sendFailed = s ∧
        send_and_process_command s .noReply = s) ∧
    (∀ (s : CtrlState) (buf : Bytes), replyDecodeFails buf →
        send_and_process_command s (.received buf) = s) := by
  refine ⟨fun s => ⟨rfl, rfl⟩, fun s buf hfail => ?_⟩
  show process_reply s buf = s
  unfold process_reply
  dsimp only
  rcases hfail with h0 | ⟨hns, hnv⟩ | ⟨hv, hlen⟩
  · rw [if_pos h0]
  · by_cases h0 : buf.length = 0
    · rw [if_pos h0]
    · rw [if_neg h0, if_neg hns, if_neg hnv]
  · by_cases h0 : buf.length = 0
    · rw [if_pos h0]
    · rw [if_neg h0, if_neg (show ¬ buf.getD 0 0 = 59 by omega), if_pos hv,
          if_neg (show ¬ 7 ≤ buf.length by omega)]

/-- Witness for C8: an unknown reply byte changes nothing. -/
theorem unsuccessful_round_trip_preserves_state_witness :
    replyDecodeFails [88] ∧
    send_and_process_command demoCtrl (.received [88]) = demoCtrl :=
  ⟨by decide, unsuccessful_round_trip_preserves_state.2 demoCtrl [88] (by decide)⟩

/-- C1 counterexample: the wire frame is the power command byte 'V' followed
by the tampered tag bytes 0x4D 0x00 (the genuine tag of "V" under the shared
key is 26638, not 77 * 256 = 19712). The phaser performs a state transition,
executing the stored target because the first tag byte collides with 'M',
and it transmits a reply; nothing is silently dropped. -/
theorem tampered_frame_transitions_and_replies :
    compute_auth [86] ≠ 77 * 256 ∧
    (phaserLoopStep demoPhaser [86, 77, 0] demoTelemetry).1 ≠ demoPhaser ∧
    (phaserLoopStep demoPhaser [86, 77, 0] demoTelemetry).2 ≠ none := by
  refine ⟨by decide, by decide, by decide⟩

/-- C1 amended: for a received frame whose truncated bytes match none of the
dispatch cases (tag bytes are never even examined), the phaser makes no
state transition and builds no new reply, but the loop still transmits the
existing reply buffer, stale from the previous transaction. -/
theorem undispatched_frame_keeps_state_still_replies (s : PhaserState) (frame : Bytes)
    (t : Telemetry)
    (h : ¬ dispatches (frame.take (recvLen frame)) (recvLen frame)) :
    phaserLoopStep s frame t = (s, some s.reply) := by
  unfold phaserLoopStep
  dsimp only
  unfold dispatches at h
  push_neg at h
  obtain ⟨ha, hb, hc⟩ := h
  suffices hs : process_command s (frame.take (recvLen frame)) (recvLen frame) t = s by
    rw [hs]
  unfold process_command
  split_ifs with h0 h1 hV hSemi h3 hI hM h7 hPre <;> try rfl
  · exact absurd hV (ha h1).1
  · exact absurd hSemi (ha h1).2
  · exact absurd hI (hb h3).1
  · exact absurd hM (hb h3).2
  · exact absurd hPre.2.2 (hc h7 hPre.1 hPre.2.1)

/-- Witness for the amended C1: a set-direction frame with two appended tag
bytes arrives as 9 bytes, is truncated to the 6 bytes "AP1045", dispatches
nowhere, and the loop re-transmits the stale reply buffer. -/
theorem undispatched_frame_keeps_state_still_replies_witness :
    ¬ dispatches [65, 80, 49, 48, 52, 53] 6 ∧
    phaserLoopStep demoPhaser [65, 80, 49, 48, 52, 53, 13, 7, 7] demoTelemetry
      = (demoPhaser, some demoPhaser.reply) :=
  ⟨by decide,
    undispatched_frame_keeps_state_still_replies demoPhaser
      [65, 80, 49, 48, 52, 53, 13, 7, 7] demoTelemetry (by decide)⟩

/-- C2 (code-bug evidence): processing the execute-now set-direction frame
"AP1045CR" drives the Full profile's NE relay row and sets current to NE,
and the reply carries the azimuth "045"; but the controller's process_reply
reads reply byte 1, the character '0', as a direction digit, so its
retained direction becomes 0 (N) and not 1 (NE). -/
theorem scenarioA_controller_retains_N :
    (process_command ⟨0, 0, [false, false, false, false, false, false], []⟩
        [65, 80, 49, 48, 52, 53, 13] 7 demoTelemetry).relays
      = RELAY_POSITIONS.getD 1 [] ∧
    (process_command ⟨0, 0, [false, false, false, false, false, false], []⟩
        [65, 80, 49, 48, 52, 53, 13] 7 demoTelemetry).current = 1 ∧
    (process_command ⟨0, 0, [false, false, false, false, false, false], []⟩
        [65, 80, 49, 48, 52, 53, 13] 7 demoTelemetry).reply.take 4
      = [59, 48, 52, 53] ∧
    (process_reply demoCtrl
        (process_command ⟨0, 0, [false, false, false, false, false, false], []⟩
          [65, 80, 49, 48, 52, 53, 13] 7 demoTelemetry).reply).current_direction = 0 ∧
    (process_reply demoCtrl
        (process_command ⟨0, 0, [false, false, false, false, false, false], []⟩
          [65, 80, 49, 48, 52, 53, 13] 7 demoTelemetry).reply).current_direction ≠ 1 := by
  refine ⟨by decide, by decide, by decide, by decide, by decide⟩

/-- C3 counterexample: the azimuth 022 lies in the claimed quantizer's N
sector (midpoint 22.5 would round up to NE, and 22 is below it), but the
phaser's parser maps its tens digit '2' to SW, index 5. -/
theorem quantization_claim_fails_at_22 :
    quantizeSpec8 22 = 0 ∧
    parse_direction_from_command [65, 80, 49, 48, 50, 50, 13] 7 0 = 5 ∧
    parse_direction_from_command [65, 80, 49, 48, 50, 50, 13] 7 0
      ≠ (quantizeSpec8 22 : Int) := by
  refine ⟨by decide, by decide, by decide⟩

/-- C3 amended: the phaser resolves a three-digit azimuth by its tens digit
alone through the canonical-azimuth lookup, keeping the current direction
for any unrecognized tens digit; the canonical instances hold: 000 resolves
to N, 045 to NE, and 360 to N. -/
theorem azimuth_resolved_by_tens_digit (a b c : Nat) (cur : Int) :
    parse_direction_from_command [65, 80, 49, a, b, c, 13] 7 cur
      = tensDigitDirection b cur ∧
    parse_direction_from_command [65, 80, 49, 48, 48, 48, 13] 7 cur = 0 ∧
    parse_direction_from_command [65, 80, 49, 48, 52, 53, 13] 7 cur = 1 ∧
    parse_direction_from_command [65, 80, 49, 51, 54, 48, 13] 7 cur = 0 :=
  ⟨rfl, rfl, rfl, rfl⟩

/-- Digit-count bound for the fuel-based decimal printer. -/
theorem decDigitsGo_length (fuel : Nat) : ∀ n k : Nat, n < fuel → 1 ≤ k → n < 10 ^ k →
    (decDigitsGo fuel n).length ≤ k := by
  induction fuel with
  | zero => intro n k hn _ _; omega
  | succ fuel ih =>
    intro n k hn hk hnk
    unfold decDigitsGo
    split_ifs with h10
    · simp only [List.length_cons, List.length_nil]
      omega
    · obtain ⟨k', rfl⟩ : ∃ k', k = k' + 1 := ⟨k - 1, by omega⟩
      have hpow : (10 : Nat) ^ (k' + 1) = 10 * 10 ^ k' := by ring
      have hk' : 1 ≤ k' := by
        rcases Nat.eq_zero_or_pos k' with h0 | h0
        · subst h0
          norm_num at hnk
          omega
        · omega
      have hrec := ih (n / 10) k' (by omega) hk' (by omega)
      simp only [List.length_append, List.length_cons, List.length_nil]
      omega

/-- A number below 10 to the k prints in at most k digits. -/
theorem decDigits_length_le (n k : Nat) (hk : 1 ≤ k) (h : n < 10 ^ k) :
    (decDigits n).length ≤ k :=
  decDigitsGo_length (n + 1) n k (Nat.lt_succ_self n) hk h

/-- Length of a signed sprintf field: the width, or sign plus digits when
the value does not fit. -/
theorem fmtInt_plus_length (width : Nat) (v : Int) :
    (fmtInt true width v).length = max width (1 + (decDigits v.natAbs).length) := by
  unfold fmtInt
  dsimp only
  by_cases hv : v < 0
  · rw [if_pos hv]
    simp only [List.length_append, List.length_replicate, List.length_cons,
      List.length_nil]
    omega
  · rw [if_neg hv, if_pos rfl]
    simp only [List.length_append, List.length_replicate, List.length_cons,
      List.length_nil]
    omega

/-- Length of an unsigned sprintf field for a nonnegative value. -/
theorem fmtInt_nonneg_length (width : Nat) (v : Int) (h : 0 ≤ v) :
    (fmtInt false width v).length = max width (decDigits v.natAbs).length := by
  unfold fmtInt
  dsimp only
  rw [if_neg (by omega : ¬ v < 0), if_neg (by decide : ¬ false = true)]
  simp only [List.length_append, List.length_replicate, List.length_cons,
    List.length_nil]
  omega

/-- C4 amended: the encoder does not clamp; instead, whenever every
telemetry value fits its field, each sprintf field keeps its fixed width and
the position frame its fixed 24-byte length (the counterexample shows an
oversized value widening its field and shifting everything after it). -/
theorem position_reply_fixed_length_when_in_range (d : Int) (t : Telemetry)
    (hd0 : 0 ≤ d) (hd : d < 8)
    (hr1 : -999 ≤ t.rssi) (hr2 : t.rssi ≤ 999)
    (hv1 : 0 ≤ t.bus_mv) (hv2 : t.bus_mv ≤ 99999)
    (hi1 : 0 ≤ t.bus_ma) (hi2 : t.bus_ma ≤ 999)
    (hb1 : 0 ≤ t.mcu_mv) (hb2 : t.mcu_mv ≤ 9999) :
    (build_position_reply d t).length = 24 := by
  have hazi : (DIRECTION_ANGLES.getD d.toNat []).length = 3 := by
    have hball : ∀ j, j < 8 → (DIRECTION_ANGLES.getD j []).length = 3 := by decide
    exact hball d.toNat (by omega)
  have hra : (decDigits t.rssi.natAbs).length ≤ 3 :=
    decDigits_length_le _ 3 (by norm_num) (by norm_num; omega)
  have hva : (decDigits t.bus_mv.natAbs).length ≤ 5 :=
    decDigits_length_le _ 5 (by norm_num) (by norm_num; omega)
  have hia : (decDigits t.bus_ma.natAbs).length ≤ 3 :=
    decDigits_length_le _ 3 (by norm_num) (by norm_num; omega)
  have hba : (decDigits t.mcu_mv.natAbs).length ≤ 4 :=
    decDigits_length_le _ 4 (by norm_num) (by norm_num; omega)
  have hr : (fmtInt true 4 t.rssi).length = 4 := by
    rw [fmtInt_plus_length]; omega
  have hv : (fmtInt false 5 t.bus_mv).length = 5 := by
    rw [fmtInt_nonneg_length _ _ hv1]; omega
  have hi : (fmtInt false 3 t.bus_ma).length = 3 := by
    rw [fmtInt_nonneg_length _ _ hi1]; omega
  have hb : (fmtInt false 4 t.mcu_mv).length = 4 := by
    rw [fmtInt_nonneg_length _ _ hb1]; omega
  unfold build_position_reply
  simp only [List.length_append, List.length_cons, List.length_nil, hazi, hr, hv, hi, hb]

/-- Witness for the amended C4 at the in-range demo telemetry. -/
theorem position_reply_fixed_length_witness :
    (build_position_reply 1 demoTelemetry).length = 24 :=
  position_reply_fixed_length_when_in_range 1 demoTelemetry (by decide) (by decide)
    (by decide) (by decide) (by decide) (by decide) (by decide) (by decide)
    (by decide) (by decide)

/-- C4 counterexample: a bus voltage of 123456 mV does not fit the %05d
field; sprintf emits all six digits instead of clamping, the frame grows
from 24 to 25 bytes, and the byte at index 15 — the current-field marker
'i' for in-range telemetry — becomes the displaced digit '6'. -/
theorem position_reply_overflow_shifts_fields :
    (build_position_reply 0 overTelemetry).length = 25 ∧
    (build_position_reply 0 overTelemetry).getD 15 0 = 54 ∧
    (build_position_reply 0 demoTelemetry).getD 15 0 = 105 := by
  refine ⟨by decide, by decide, by decide⟩
